import Mathlib

/-!
Verification development for the postgres-mcp-sse gateway.

The definitions below are a shallow embedding of the Go sources:
  * `internal/server/core.go` — schema-scoped executor and introspection
    operations (`ExecuteQuery`, `SampleRows`, `DescribeTable`,
    `GetForeignKeys`, `GetFullTableSchema`);
  * `internal/server/core.go` (second unit) — the value normalizer
    `convertValue`;
  * `internal/server/handlers.go` — the HTTP handlers
    (`ExecuteQueryHandler`, `FullTableSchemaHandler`, `SampleRowsHandler`,
    `DescribeTableHandler`, `ForeignKeysHandler`);
  * `main.go` and its sibling server variants — the MCP tool dispatcher
    (`handleToolCall` and the per-tool handlers), the legacy unquoted
    `executeQuery` helper, and the SSE `Hub`.

Go's `interface{}` values that can appear in a result row are modelled by
the inductive `GoValue`; Go maps built by inserting keys in a fixed order
are modelled as association lists in insertion order (no claim below
involves duplicate column names, so first-match lookup agrees with Go's
last-write-wins map semantics).  Database access is modelled two ways:
an opaque environment `DbEnv` that records every statement handed to
`db.Exec`/`db.Query` (for claims about control flow, quoting and db
usage), and a semantic model of the fixed `information_schema` queries
over an abstract catalog (for claims about which rows those queries
return).
-/

set_option exponentiation.threshold 2500
set_option maxRecDepth 16000

namespace PgMcp

/-- The value of a Go `float64` as delivered by `strconv.ParseFloat`,
modelled exactly: every finite binary64 is a rational, and a finite
parse result is carried as the exact rational value of the *rounded*
double (the numeral's exact value is rounded to the nearest binary64,
ties to even, by `roundFloat64` below); the IEEE special values are
explicit constructors. -/
inductive GoFloat where
  | finite (q : ℚ)
  | inf (neg : Bool)
  | nan
deriving DecidableEq

/-- A Go `interface{}` value as it can appear in a scanned row or a JSON
response: `nil`, `bool`, `int64`, `float64`, `string`, a raw driver
`[]byte` cell (carried as its UTF-8 text), a slice, or a
`map[string]interface{}` (carried as an association list in insertion
order). -/
inductive GoValue where
  | nil
  | bool (b : Bool)
  | int (n : ℤ)
  | float (f : GoFloat)
  | str (s : String)
  | bytes (s : String)
  | arr (xs : List GoValue)
  | obj (fields : List (String × GoValue))

/-- First-match lookup in the field list of an object value. -/
def lookupField : List (String × GoValue) → String → Option GoValue
  | [], _ => none
  | (k, v) :: rest, key => if k = key then some v else lookupField rest key

/-- Lookup of a key in an object value; `none` on non-objects. -/
def objLookup : GoValue → String → Option GoValue
  | .obj fields, key => lookupField fields key
  | _, _ => none

/-- A Go slice built by `append` onto a `var xs []T` declaration: such a
slice is `nil` until the first append and JSON-marshals to `null` when no
element was ever appended, and to an array otherwise. -/
def goSliceVal (xs : List GoValue) : GoValue :=
  if xs.isEmpty then .nil else .arr xs

/-- `pq.QuoteIdentifier` from github.com/lib/pq: truncate at the first
NUL rune, double every interior double quote, and wrap the result in
double quotes. -/
def quoteIdentifier (name : String) : String :=
  let cut := name.toList.takeWhile (fun c => c.toNat ≠ 0)
  let escaped := cut.foldr
    (fun c acc => if c = '"' then '"' :: '"' :: acc else c :: acc) []
  "\"" ++ String.mk escaped ++ "\""

/-- The schema-pin statement as built by `ExecuteQuery` (core.go:13),
`SampleRows` (core.go:170) and `ExecuteQueryHandler` (handlers.go:66):
`fmt.Sprintf("SET search_path TO %s", pq.QuoteIdentifier(schema))`. -/
def pinQuoted (schema : String) : String :=
  "SET search_path TO " ++ quoteIdentifier schema

/-- The schema-pin statement as built by the standalone `executeQuery`
helpers (main.go:573 and the corresponding helper in the SSE server
variants): `fmt.Sprintf("SET search_path TO %s", schema)` — the schema is
interpolated without any quoting. -/
def pinRaw (schema : String) : String :=
  "SET search_path TO " ++ schema

/-! ### A model of `strconv.ParseFloat(s, 64)`

`convertValue` (core.go:269) delegates numeric recognition to Go's
`strconv.ParseFloat`.  The model below reproduces its accepted grammar:
optional sign; the case-insensitive specials `inf`, `infinity` (signed)
and `nan` (unsigned only — a signed `nan` is a syntax error in Go);
decimal mantissa with optional fraction and `e`-exponent; hexadecimal
mantissa with mandatory `p`-exponent; digit-separating underscores
validated exactly as Go's `underscoreOK`.  The exact rational value of
the numeral is then rounded to the nearest binary64 (round to nearest,
ties to even, subnormals included) by `roundFloat64`, and a finite
result carries the exact rational value of that double.  A magnitude
that rounds beyond the largest finite double overflows to an infinity,
and a nonzero magnitude that rounds to zero underflows — in both cases
`ParseFloat` reports `ErrRange`, a non-nil error, so the model yields
`none`. -/

/-- ASCII lower-casing as Go's `lower(c) = c | 0x20` on letters. -/
def lowerChar (c : Char) : Char :=
  if 'A' ≤ c ∧ c ≤ 'Z' then Char.ofNat (c.toNat + 32) else c

/-- Case-insensitive hexadecimal digit. -/
def isHexDigitCI (c : Char) : Bool :=
  c.isDigit || (decide ('a' ≤ lowerChar c) && decide (lowerChar c ≤ 'f'))

/-- Value of a decimal digit string. -/
def digitsToNat (cs : List Char) : ℕ :=
  cs.foldl (fun acc c => acc * 10 + (c.toNat - 48)) 0

/-- Value of one hexadecimal digit. -/
def hexDigitVal (c : Char) : ℕ :=
  if c.isDigit then c.toNat - 48 else (lowerChar c).toNat - 87

/-- Value of a hexadecimal digit string. -/
def hexToNat (cs : List Char) : ℕ :=
  cs.foldl (fun acc c => acc * 16 + hexDigitVal c) 0

/-- Strip one optional leading sign; returns whether it was `-`. -/
def stripSign : List Char → Bool × List Char
  | '-' :: rest => (true, rest)
  | '+' :: rest => (false, rest)
  | cs => (false, cs)

/-- The state tracked by Go's `underscoreOK`: start of number, last saw
a digit (or base prefix), last saw an underscore, or anything else. -/
inductive USaw where
  | hat
  | digit
  | under
  | other
deriving DecidableEq

/-- Core loop of Go's `strconv.underscoreOK`: an underscore may appear
only between digits or between a base prefix and a digit. -/
def underscoreOKAux (hex : Bool) : USaw → List Char → Bool
  | saw, [] => !(saw == USaw.under)
  | saw, c :: rest =>
    if c.isDigit || (hex && isHexDigitCI c) then
      underscoreOKAux hex USaw.digit rest
    else if c = '_' then
      if saw = USaw.digit then underscoreOKAux hex USaw.under rest else false
    else if saw = USaw.under then false
    else underscoreOKAux hex USaw.other rest

/-- Go's `strconv.underscoreOK` over the full token (sign and base
prefix included). -/
def underscoreOK (cs : List Char) : Bool :=
  let cs1 := (stripSign cs).2
  match cs1 with
  | '0' :: c :: rest =>
    if lowerChar c = 'b' ∨ lowerChar c = 'o' ∨ lowerChar c = 'x' then
      underscoreOKAux (lowerChar c == 'x') USaw.digit rest
    else underscoreOKAux false USaw.hat cs1
  | _ => underscoreOKAux false USaw.hat cs1

/-- Case-insensitive tail of an infinity spelling. -/
def isInfTail (cs : List Char) : Bool :=
  cs == "inf".toList || cs == "infinity".toList

/-- Go's `strconv.special`: `inf`/`infinity` with optional sign, `nan`
without sign, case-insensitive, whole string consumed. -/
def parseSpecial (s : String) : Option GoFloat :=
  let ls := s.toList.map lowerChar
  if ls = "nan".toList then some .nan
  else
    match ls with
    | '+' :: rest => if isInfTail rest then some (.inf false) else none
    | '-' :: rest => if isInfTail rest then some (.inf true) else none
    | _ => if isInfTail ls then some (.inf false) else none

/-- `m * 10 ^ exp` as an exact rational (built with `mkRat` so that the
value is a normalized core rational). -/
def qTimesPow10 (m : ℕ) (exp : ℤ) : ℚ :=
  if 0 ≤ exp then mkRat (m * 10 ^ exp.toNat) 1
  else mkRat m (10 ^ (-exp).toNat)

/-- `m * 2 ^ exp` as an exact rational. -/
def qTimesPow2 (m : ℕ) (exp : ℤ) : ℚ :=
  if 0 ≤ exp then mkRat (m * 2 ^ exp.toNat) 1
  else mkRat m (2 ^ (-exp).toNat)

/-- Mantissa-and-exponent finish of a decimal numeral: `d1` integer
digits, `d2` fraction digits, `r` the rest (empty or an exponent). -/
def finishDec (d1 d2 r : List Char) : Option ℚ :=
  if d1.isEmpty && d2.isEmpty then none
  else
    match r with
    | [] => some (qTimesPow10 (digitsToNat (d1 ++ d2)) (-(d2.length : ℤ)))
    | c :: rest =>
      if lowerChar c = 'e' then
        let (eneg, rest2) := stripSign rest
        let ed := rest2.takeWhile Char.isDigit
        let r3 := rest2.dropWhile Char.isDigit
        if ed.isEmpty || !r3.isEmpty then none
        else
          let e : ℤ := (if eneg then -(digitsToNat ed : ℤ) else (digitsToNat ed : ℤ))
          some (qTimesPow10 (digitsToNat (d1 ++ d2)) (e - d2.length))
      else none

/-- Unsigned decimal numeral: digits, optional `.` and fraction digits,
optional decimal exponent; at least one mantissa digit. -/
def parseDecCore (cs : List Char) : Option ℚ :=
  let d1 := cs.takeWhile Char.isDigit
  let r1 := cs.dropWhile Char.isDigit
  match r1 with
  | '.' :: rest =>
    finishDec d1 (rest.takeWhile Char.isDigit) (rest.dropWhile Char.isDigit)
  | _ => finishDec d1 [] r1

/-- Finish of a hexadecimal numeral: Go requires the binary `p`
exponent. -/
def finishHex (h1 h2 r : List Char) : Option ℚ :=
  if h1.isEmpty && h2.isEmpty then none
  else
    match r with
    | [] => none
    | c :: rest =>
      if lowerChar c = 'p' then
        let (eneg, rest2) := stripSign rest
        let ed := rest2.takeWhile Char.isDigit
        let r3 := rest2.dropWhile Char.isDigit
        if ed.isEmpty || !r3.isEmpty then none
        else
          let e : ℤ := (if eneg then -(digitsToNat ed : ℤ) else (digitsToNat ed : ℤ))
          some (qTimesPow2 (hexToNat (h1 ++ h2)) (e - 4 * h2.length))
      else none

/-- Unsigned hexadecimal numeral (after the `0x` prefix). -/
def parseHexCore (cs : List Char) : Option ℚ :=
  let h1 := cs.takeWhile isHexDigitCI
  let r1 := cs.dropWhile isHexDigitCI
  match r1 with
  | '.' :: rest =>
    finishHex h1 (rest.takeWhile isHexDigitCI) (rest.dropWhile isHexDigitCI)
  | _ => finishHex h1 [] r1

/-- Signed numeral (decimal or `0x` hexadecimal), exact value. -/
def parseNumber (cs : List Char) : Option ℚ :=
  let (neg, cs1) := stripSign cs
  let mag :=
    match cs1 with
    | '0' :: c :: rest => if lowerChar c = 'x' then parseHexCore rest else parseDecCore cs1
    | _ => parseDecCore cs1
  mag.map (fun q => if neg then Rat.neg q else q)

/-- Fuel-driven base-2 logarithm on naturals (the fuel `n` itself always
suffices, since the argument at least halves each step). -/
def natLog2Fuel : ℕ → ℕ → ℕ
  | 0, _ => 0
  | fuel + 1, n => if n ≤ 1 then 0 else natLog2Fuel fuel (n / 2) + 1

/-- `⌊log₂ n⌋` for `n ≥ 1` (and `0` at `0`). -/
def natLog2 (n : ℕ) : ℕ := natLog2Fuel n n

/-- `⌊log₂ (n / d)⌋` for `n, d ≥ 1`: the bit lengths bracket the
quotient within a factor of two, and one exact comparison settles it. -/
def floorLog2Q (n d : ℕ) : ℤ :=
  let k : ℤ := (natLog2 n : ℤ) - (natLog2 d : ℤ)
  if 0 ≤ k then (if d * 2 ^ k.toNat ≤ n then k else k - 1)
  else (if d ≤ n * 2 ^ (-k).toNat then k else k - 1)

/-- IEEE-754 binary64 rounding of an exact rational, round to nearest
with ties to even, subnormals included: the result is the exact rational
value of the nearest double, or `none` when the magnitude rounds to
`2^1024` or beyond (overflow to an infinity).  The rounding grid is
`2^(E - 52)` where `E` is the binary exponent floored at `-1022`; the
mantissa is rounded half-to-even on that grid (a carry to `2^53` simply
lands on the next binade's smallest mantissa, so the value `m * 2^g` is
correct without renormalization). -/
def roundFloat64 (q : ℚ) : Option ℚ :=
  if q.num = 0 then some 0
  else
    let n := q.num.natAbs
    let d := q.den
    let E : ℤ := max (floorLog2Q n d) (-1022)
    let g : ℤ := E - 52
    let N : ℕ := if 0 ≤ g then n else n * 2 ^ (-g).toNat
    let D : ℕ := if 0 ≤ g then d * 2 ^ g.toNat else d
    let m0 := N / D
    let r := N % D
    let m : ℕ :=
      if 2 * r < D then m0
      else if D < 2 * r then m0 + 1
      else if m0 % 2 = 0 then m0 else m0 + 1
    if 0 ≤ g ∧ 2 ^ 1024 ≤ m * 2 ^ g.toNat then none
    else
      let mag : ℚ :=
        if 0 ≤ g then mkRat (m * 2 ^ g.toNat : ℕ) 1 else mkRat m (2 ^ (-g).toNat)
      some (if q.num < 0 then Rat.neg mag else mag)

/-- `strconv.ParseFloat(s, 64)` as used by `convertValue`: `some` exactly
when Go reports a nil error, carrying the value Go returns — the
numeral's exact value rounded to the nearest binary64.  Overflow to an
infinity and underflow of a nonzero numeral to zero both come with
`ErrRange`, a non-nil error, hence `none`. -/
def goParseFloat (s : String) : Option GoFloat :=
  match parseSpecial s with
  | some f => some f
  | none =>
    let cs := s.toList
    if cs.contains '_' && !underscoreOK cs then none
    else
      match parseNumber (cs.filter (fun c => c != '_')) with
      | none => none
      | some q =>
        match roundFloat64 q with
        | none => none
        | some r => if q ≠ 0 ∧ r = 0 then none else some (.finite r)

/-- The Go test `f == float64(int64(f))` on a *finite* double `f` holds
exactly when `f` is integral and inside the signed-64-bit range: an
integral double with `-2^63 ≤ f < 2^63` round-trips through `int64`
unchanged, while for `f = 2^63` or beyond the conversion overflows and
Go's implementation-defined result (the saturated bound on all supported
targets, amd64/arm64 included) converts back to a different double.
Since `goParseFloat` already carries the exact rational of the rounded
double, the test reads as below.  For an infinity or NaN the test is
false on every architecture since no `int64` converts to a non-finite
double, so only finite values reach this predicate. -/
def isGoInt64 (q : ℚ) : Prop :=
  q.den = 1 ∧ -(2 ^ 63) ≤ q.num ∧ q.num < 2 ^ 63

instance (q : ℚ) : Decidable (isGoInt64 q) := by
  unfold isGoInt64; infer_instance

/-- `convertValue` (core.go:259-282): `nil` passes through; a `[]byte`
cell is read as UTF-8 text and given to `ParseFloat`; on success, the
parsed (binary64-rounded) value is returned as an `int64` when it is
integral and in the signed-64-bit range, and as a `float64` otherwise
(including infinities and NaN); on a parse error the text is returned as
a string; every other value passes through unchanged. -/
def convertValue : GoValue → GoValue
  | .nil => .nil
  | .bytes s =>
    match goParseFloat s with
    | some (.finite q) => if isGoInt64 q then .int q.num else .float (.finite q)
    | some f => .float f
    | none => .str s
  | v => v

/-- What one driver cursor delivers. -/
structure DriverRows where
  cols : List String
  colsErr : Option String
  rows : List (List GoValue)
  iterErr : Option String

/-- The database handle. -/
structure DbEnv where
  exec : String → Except String Unit
  query : String → List GoValue → Except String DriverRows

/-- A database environment whose statements all succeed with an empty
result; used to evaluate control flow at concrete inputs. -/
def trivialDbEnv : DbEnv where
  exec := fun _ => .ok ()
  query := fun _ _ => .ok { cols := [], colsErr := none, rows := [], iterErr := none }

/-- One result row shaped as the Go code shapes it:
`rowMap[col] = vals[i]` for the columns in order. -/
def rowObj (cols : List String) (vals : List GoValue) : GoValue :=
  .obj (cols.zip vals)

/-- `ExecuteQuery` (core.go:11-51): pin the schema through
`pq.QuoteIdentifier`, run the query, and shape `{columns, rows}`.  The
scanned cells are placed in the row map exactly as the driver returned
them — `convertValue` is not called — and `rows.Err()` is never
consulted, so an iteration error after some rows still yields `.ok`. -/
def ExecuteQuery (db : DbEnv) (schema query : String) (args : List GoValue) :
    Except String GoValue × List String :=
  let pin := pinQuoted schema
  match db.exec pin with
  | .error e => (.error ("failed to set schema: " ++ e), [pin])
  | .ok _ =>
    match db.query query args with
    | .error e => (.error ("query error: " ++ e), [pin, query])
    | .ok dr =>
      match dr.colsErr with
      | some e => (.error ("failed to get columns: " ++ e), [pin, query])
      | none =>
        (.ok (.obj [("columns", .arr (dr.cols.map GoValue.str)),
                    ("rows", goSliceVal (dr.rows.map (fun r => rowObj dr.cols r)))]),
         [pin, query])

/-- The standalone `executeQuery` helper (main.go:571-619 and the same
function in the SSE server variants): pins the schema by raw string
interpolation (no quoting), but — unlike the core `ExecuteQuery` — does
check `rows.Err()` and fails instead of truncating.  Cells are likewise
not normalized. -/
def legacyExecuteQuery (db : DbEnv) (schema query : String) :
    Except String GoValue × List String :=
  let pin := pinRaw schema
  match db.exec pin with
  | .error e => (.error ("failed to set schema: " ++ e), [pin])
  | .ok _ =>
    match db.query query [] with
    | .error e => (.error ("query error: " ++ e), [pin, query])
    | .ok dr =>
      match dr.colsErr with
      | some e => (.error ("failed to get columns: " ++ e), [pin, query])
      | none =>
        match dr.iterErr with
        | some e => (.error ("rows error: " ++ e), [pin, query])
        | none =>
          (.ok (.obj [("columns", .arr (dr.cols.map GoValue.str)),
                      ("rows", goSliceVal (dr.rows.map (fun r => rowObj dr.cols r)))]),
           [pin, query])

/-- A named event sent on the Hub's broadcast channel. -/
structure EventM where
  name : String
  payload : GoValue

/-- The decoded body of `POST /query/execute` (handlers.go:20-26); JSON
fields absent from the request decode to Go zero values. -/
structure QueryRequest where
  schema : String
  query : String
  args : List GoValue
  broadcast : Bool
  eventName : String

/-- `ExecuteQueryHandler` (handlers.go:48-107): defaults the schema and
event name, pins the schema through `pq.QuoteIdentifier`, runs the
query, and — unlike the core `ExecuteQuery` — passes every scanned cell
through `convertValue` before building the row map.  `rows.Err()` is
still never consulted.  The third component lists the events sent on the
hub's broadcast channel (one, when `broadcast` is set and the query
succeeded). -/
def ExecuteQueryHandler (db : DbEnv) (req : QueryRequest) :
    Except String GoValue × List String × List EventM :=
  if req.query = "" then (.error "Missing SQL query", [], [])
  else
    let schema := if req.schema = "" then "public" else req.schema
    let eventName := if req.eventName = "" then "query_result" else req.eventName
    let pin := pinQuoted schema
    match db.exec pin with
    | .error e => (.error ("Failed to set schema: " ++ e), [pin], [])
    | .ok _ =>
      match db.query req.query req.args with
      | .error e => (.error ("Query error: " ++ e), [pin, req.query], [])
      | .ok dr =>
        let resp : GoValue :=
          .obj [("columns", .arr (dr.cols.map GoValue.str)),
                ("rows", goSliceVal (dr.rows.map
                  (fun r => rowObj dr.cols (r.map convertValue))))]
        (.ok resp, [pin, req.query],
         if req.broadcast then [⟨eventName, resp⟩] else [])

/-- `SampleRows` (core.go:164-209): coerce a non-positive limit to the
default 5, pin the schema through `pq.QuoteIdentifier`, and select up to
`limit` rows with the table name quoted.  As in `ExecuteQuery`, the
cells are not normalized and `rows.Err()` is not consulted. -/
def SampleRows (db : DbEnv) (schema table : String) (limit : ℤ) :
    Except String GoValue × List String :=
  let l : ℤ := if limit ≤ 0 then 5 else limit
  let pin := pinQuoted schema
  match db.exec pin with
  | .error e => (.error ("failed to set schema: " ++ e), [pin])
  | .ok _ =>
    let q := "SELECT * FROM " ++ quoteIdentifier table ++ " LIMIT " ++ toString l
    match db.query q [] with
    | .error e => (.error e, [pin, q])
    | .ok dr =>
      match dr.colsErr with
      | some e => (.error e, [pin, q])
      | none =>
        (.ok (.obj [("columns", .arr (dr.cols.map GoValue.str)),
                    ("rows", goSliceVal (dr.rows.map (fun r => rowObj dr.cols r)))]),
         [pin, q])

/-! ### Introspection operations over the opaque environment

The fixed SQL texts below stand for the corresponding query literals in
core.go (whitespace and SQL string quoting normalized); at this level a
statement is an opaque key handed to the environment, so only its
identity matters.  `cellString` models scanning a driver cell into a Go
`string`/`sql.NullString` (the pq driver hands text columns over as
bytes); a NULL cell is `GoValue.nil` and scans to an invalid
`NullString`. -/

def listSchemasSQL : String :=
  "SELECT schema_name FROM information_schema.schemata ORDER BY schema_name;"

def listTablesSQL : String :=
  "SELECT table_name FROM information_schema.tables WHERE table_schema = $1 ORDER BY table_name;"

def columnsSQL : String :=
  "SELECT column_name, data_type, is_nullable, column_default FROM information_schema.columns WHERE table_schema = $1 AND table_name = $2 ORDER BY ordinal_position;"

def foreignKeysSQL : String :=
  "SELECT kcu.column_name, ccu.table_schema, ccu.table_name, ccu.column_name FROM table_constraints tc JOIN key_column_usage kcu JOIN constraint_column_usage ccu WHERE constraint_type = FOREIGN KEY AND tc.table_schema = $1 AND tc.table_name = $2;"

/-- Scan one driver cell into a Go string. -/
def cellString : GoValue → String
  | .str s => s
  | .bytes s => s
  | _ => ""

/-- `ListSchemas` (core.go:76-92). -/
def ListSchemasCore (db : DbEnv) : Except String (List String) × List String :=
  match db.query listSchemasSQL [] with
  | .error e => (.error e, [listSchemasSQL])
  | .ok dr => (.ok (dr.rows.map (fun r => cellString (r.getD 0 GoValue.nil))), [listSchemasSQL])

/-- `ListTables` (core.go:54-73). -/
def ListTablesCore (db : DbEnv) (schema : String) : Except String (List String) × List String :=
  match db.query listTablesSQL [.str schema] with
  | .error e => (.error e, [listTablesSQL])
  | .ok dr => (.ok (dr.rows.map (fun r => cellString (r.getD 0 GoValue.nil))), [listTablesSQL])

/-- One scanned row of the `information_schema.columns` query, shaped as
core.go:113-120 shapes it: `nullable` becomes the boolean
`isNullable == "YES"`, and `default` is present only when the scanned
`NullString` is valid (the cell was not NULL). -/
def scanColumnRow (r : List GoValue) : GoValue :=
  .obj ([("name", .str (cellString (r.getD 0 GoValue.nil))),
         ("type", .str (cellString (r.getD 1 GoValue.nil))),
         ("nullable", .bool (cellString (r.getD 2 GoValue.nil) == "YES"))] ++
        (match r.getD 3 GoValue.nil with
         | .nil => []
         | v => [("default", .str (cellString v))]))

/-- `DescribeTable` (core.go:132-161). -/
def DescribeTableCore (db : DbEnv) (schema table : String) :
    Except String (List GoValue) × List String :=
  match db.query columnsSQL [.str schema, .str table] with
  | .error e => (.error e, [columnsSQL])
  | .ok dr => (.ok (dr.rows.map scanColumnRow), [columnsSQL])

/-- The describe query of the HTTP handler (handlers.go:238-242): unlike
the core `DescribeTable` query it selects no `column_default` and has no
`ORDER BY ordinal_position`. -/
def describeHandlerSQL : String :=
  "SELECT column_name, data_type, is_nullable FROM information_schema.columns WHERE table_schema = $1 AND table_name = $2;"

/-- One row of the handler's describe query, marshalled as its `Column`
struct (handlers.go:249-254): `Nullable` is the raw `YES`/`NO` *string*,
and `DefaultValue` — never scanned, since the query selects only three
columns — stays empty and is dropped by its `omitempty` tag, so no
`default` field ever appears. -/
def mkHandlerDescriptor (r : List GoValue) : GoValue :=
  .obj [("name", .str (cellString (r.getD 0 GoValue.nil))),
        ("type", .str (cellString (r.getD 1 GoValue.nil))),
        ("nullable", .str (cellString (r.getD 2 GoValue.nil)))]

/-- `DescribeTableHandler` (handlers.go:230-263): runs the unordered
describe query and returns the scanned rows in whatever order the
database delivered them (it applies no reordering). -/
def DescribeTableHandler (db : DbEnv) (schema table : String) :
    Except String GoValue × List String :=
  match db.query describeHandlerSQL [.str schema, .str table] with
  | .error e => (.error e, [describeHandlerSQL])
  | .ok dr => (.ok (goSliceVal (dr.rows.map mkHandlerDescriptor)), [describeHandlerSQL])

/-- `GetFullTableSchema` (core.go:95-129): runs the *columns* query
only, and propagates its failure; the returned composite carries no
sample rows and no foreign keys. -/
def GetFullTableSchemaCore (db : DbEnv) (schema table : String) :
    Except String GoValue × List String :=
  match db.query columnsSQL [.str schema, .str table] with
  | .error e => (.error e, [columnsSQL])
  | .ok dr =>
    (.ok (.obj [("schema", .str schema), ("table", .str table),
                ("columns", goSliceVal (dr.rows.map scanColumnRow))]),
     [columnsSQL])

/-- One scanned row of the core foreign-key query, shaped as
core.go:242-249 shapes it. -/
def scanFkRow (r : List GoValue) : GoValue :=
  .obj [("column", .str (cellString (r.getD 0 GoValue.nil))),
        ("references", .obj [("schema", .str (cellString (r.getD 1 GoValue.nil))),
                             ("table", .str (cellString (r.getD 2 GoValue.nil))),
                             ("column", .str (cellString (r.getD 3 GoValue.nil)))])]

/-- `GetForeignKeys` (core.go:212-253). -/
def GetForeignKeysCore (db : DbEnv) (schema table : String) :
    Except String (List GoValue) × List String :=
  match db.query foreignKeysSQL [.str schema, .str table] with
  | .error e => (.error e, [foreignKeysSQL])
  | .ok dr => (.ok (dr.rows.map scanFkRow), [foreignKeysSQL])

/-! ### The MCP tool dispatcher (main.go:186-504)

`toolArgs` is a `map[string]interface{}`; a missing key makes the Go
type assertion fail, which the handlers turn into a default.  `ToolArgs`
records each argument the handlers read (`limit` arrives as a JSON
`float64` and is truncated to `int`; it is modelled as the truncated
integer).  `ToolText.jsonOf v` stands for the string
`json.Marshal(v)` placed in the single text content item of the
response; the marshalling itself is kept abstract (and injective). -/

structure ToolArgs where
  query : Option String := none
  schema : Option String := none
  table : Option String := none
  limit : Option ℤ := none
  broadcast : Option Bool := none
  eventName : Option String := none
  args : Option (List GoValue) := none

/-- The empty argument mapping. -/
def emptyToolArgs : ToolArgs := {}

/-- The text content of a tool response: either the JSON rendering of a
result value or a literal message. -/
inductive ToolText where
  | jsonOf (v : GoValue)
  | plain (s : String)

/-- A tool-call response: one text content item. -/
structure ToolResponse where
  text : ToolText

/-- An ASCII apostrophe. -/
def sq : String := String.mk [Char.ofNat 39]

/-- main.go:207: the default-branch response text of `handleToolCall`. -/
def notImplementedText (name : String) : String :=
  "Tool " ++ sq ++ name ++ sq ++ " not implemented yet"

/-- The error text the tool handlers wrap a failure in. -/
def errText (e : String) : ToolText := .plain ("Error: " ++ e)

/-- The missing-table rejection shared by several tool handlers. -/
def missingTableResponse : ToolResponse × List String × List EventM :=
  (⟨.plain "Error: Missing table name"⟩, [], [])

/-- `handleExecuteQuery` (main.go:215-263): defaults, core
`ExecuteQuery`, optional broadcast of the successful result. -/
def handleExecuteQuery (db : DbEnv) (a : ToolArgs) :
    ToolResponse × List String × List EventM :=
  let query := a.query.getD ""
  let schema := a.schema.getD "public"
  let broadcast := a.broadcast.getD false
  let en0 := a.eventName.getD ""
  let eventName := if en0 = "" then "query_result" else en0
  match ExecuteQuery db schema query (a.args.getD []) with
  | (.error e, log) => (⟨errText e⟩, log, [])
  | (.ok r, log) => (⟨.jsonOf r⟩, log, if broadcast then [⟨eventName, r⟩] else [])

/-- `handleListSchemas` (main.go:266-290). -/
def handleListSchemas (db : DbEnv) : ToolResponse × List String × List EventM :=
  match ListSchemasCore db with
  | (.error e, log) => (⟨errText e⟩, log, [])
  | (.ok xs, log) => (⟨.jsonOf (goSliceVal (xs.map GoValue.str))⟩, log, [])

/-- `handleListTables` (main.go:293-322). -/
def handleListTables (db : DbEnv) (a : ToolArgs) :
    ToolResponse × List String × List EventM :=
  match ListTablesCore db (a.schema.getD "public") with
  | (.error e, log) => (⟨errText e⟩, log, [])
  | (.ok xs, log) => (⟨.jsonOf (goSliceVal (xs.map GoValue.str))⟩, log, [])

/-- `handleGetFullTableSchema` (main.go:325-366). -/
def handleGetFullTableSchema (db : DbEnv) (a : ToolArgs) :
    ToolResponse × List String × List EventM :=
  if a.table.getD "" = "" then missingTableResponse
  else
    match GetFullTableSchemaCore db (a.schema.getD "public") (a.table.getD "") with
    | (.error e, log) => (⟨errText e⟩, log, [])
    | (.ok r, log) => (⟨.jsonOf r⟩, log, [])

/-- `handleDescribeTable` (main.go:369-410). -/
def handleDescribeTable (db : DbEnv) (a : ToolArgs) :
    ToolResponse × List String × List EventM :=
  if a.table.getD "" = "" then missingTableResponse
  else
    match DescribeTableCore db (a.schema.getD "public") (a.table.getD "") with
    | (.error e, log) => (⟨errText e⟩, log, [])
    | (.ok cols, log) => (⟨.jsonOf (goSliceVal cols)⟩, log, [])

/-- `handleSampleRows` (main.go:413-460): limit defaults to 5 when the
argument is absent, then `SampleRows` coerces any non-positive value
back to 5. -/
def handleSampleRows (db : DbEnv) (a : ToolArgs) :
    ToolResponse × List String × List EventM :=
  if a.table.getD "" = "" then missingTableResponse
  else
    match SampleRows db (a.schema.getD "public") (a.table.getD "") (a.limit.getD 5) with
    | (.error e, log) => (⟨errText e⟩, log, [])
    | (.ok r, log) => (⟨.jsonOf r⟩, log, [])

/-- `handleGetForeignKeys` (main.go:463-504). -/
def handleGetForeignKeys (db : DbEnv) (a : ToolArgs) :
    ToolResponse × List String × List EventM :=
  if a.table.getD "" = "" then missingTableResponse
  else
    match GetForeignKeysCore db (a.schema.getD "public") (a.table.getD "") with
    | (.error e, log) => (⟨errText e⟩, log, [])
    | (.ok fks, log) => (⟨.jsonOf (goSliceVal fks)⟩, log, [])

/-- The seven tool names registered by `handleToolsList`
(main.go:149-183) and dispatched by `handleToolCall`. -/
def registeredToolNames : List String :=
  ["executeQuery", "listSchemas", "listTables", "getFullTableSchema",
   "describeTable", "sampleRows", "getForeignKeys"]

/-- `handleToolCall` (main.go:186-212): dispatch on the tool name; any
other name falls to the default branch, which builds the
"not implemented yet" response without touching the database (the
statement log stays empty). -/
def handleToolCall (db : DbEnv) (name : String) (a : ToolArgs) :
    ToolResponse × List String × List EventM :=
  if name = "executeQuery" then handleExecuteQuery db a
  else if name = "listSchemas" then handleListSchemas db
  else if name = "listTables" then handleListTables db a
  else if name = "getFullTableSchema" then handleGetFullTableSchema db a
  else if name = "describeTable" then handleDescribeTable db a
  else if name = "sampleRows" then handleSampleRows db a
  else if name = "getForeignKeys" then handleGetForeignKeys db a
  else (⟨.plain (notImplementedText name)⟩, [], [])

/-! ### Semantic model of the catalog queries

For the claims about *which* rows the fixed `information_schema`
statements return, the catalog is modelled directly: a list of
single-column foreign-key constraints and a list of column definitions.
`information_schema.table_constraints` rows live with the constrained
table, `key_column_usage` rows carry the constraining column, and
`constraint_column_usage` rows carry the referenced column and live with
the *referenced* table's schema — so the join condition
`ccu.table_schema = tc.table_schema` used by both queries keeps only
constraints whose referenced table is in the same schema as the
constrained one.  Multi-column constraints and catalog privileges are
outside the model. -/

/-- One foreign-key constraint of the database: `schema.table.column`
references `refSchema.refTable.refColumn`. -/
structure Fk where
  name : String
  schema : String
  table : String
  column : String
  refSchema : String
  refTable : String
  refColumn : String
deriving DecidableEq

/-- The rows of the core `GetForeignKeys` query (core.go:213-231): the
WHERE clause keeps `tc.constraint_type = FOREIGN KEY`,
`tc.table_schema = $1` and `tc.table_name = $2` — only constraints whose
*constrained* table is the requested one — and the joins force the
referenced table into the same schema. -/
def coreFkRows (fks : List Fk) (s t : String) : List Fk :=
  fks.filter (fun fk => fk.schema == s && fk.table == t && fk.refSchema == fk.schema)

/-- The result entry the core `GetForeignKeys` builds from one row
(core.go:242-249). -/
def mkFkEntry (fk : Fk) : GoValue :=
  .obj [("column", .str fk.column),
        ("references", .obj [("schema", .str fk.refSchema),
                             ("table", .str fk.refTable),
                             ("column", .str fk.refColumn)])]

/-- `GetForeignKeys` over the semantic catalog. -/
def GetForeignKeysSem (fks : List Fk) (s t : String) : List GoValue :=
  (coreFkRows fks s t).map mkFkEntry

/-- The rows of the handler query (handlers.go:309-323): same joins, but
the WHERE clause is `tc.table_name = $2 OR ccu.table_name = $2`, so
constraints *referencing* the requested table also match. -/
def handlerFkRows (fks : List Fk) (s t : String) : List Fk :=
  fks.filter (fun fk =>
    fk.schema == s && (fk.table == t || fk.refTable == t) && fk.refSchema == fk.schema)

/-- The `FKConstraint` struct the handlers marshal
(handlers.go:330-336). -/
def mkHandlerFkEntry (fk : Fk) : GoValue :=
  .obj [("constraint_name", .str fk.name), ("source_table", .str fk.table),
        ("source_column", .str fk.column), ("target_table", .str fk.refTable),
        ("target_column", .str fk.refColumn)]

/-- `ForeignKeysHandler`'s result list over the semantic catalog. -/
def ForeignKeysHandlerSem (fks : List Fk) (s t : String) : List GoValue :=
  (handlerFkRows fks s t).map mkHandlerFkEntry

/-- Modelled from the spec: "list of {sourceColumn, referencedSchema,
referencedTable, referencedColumn} for every foreign key where `table`
is either the constrained or the referenced table" — the set of
constraints the claim says `getForeignKeys(schema, table)` covers. -/
def specForeignKeySet (fks : List Fk) (s t : String) : List Fk :=
  fks.filter (fun fk =>
    (fk.schema == s && fk.table == t) || (fk.refSchema == s && fk.refTable == t))

/-- One column definition of the database catalog; `ordinal` is its
`ordinal_position`. -/
structure ColumnInfo where
  schema : String
  table : String
  name : String
  dataType : String
  isNullable : String
  colDefault : Option String
  ordinal : ℕ
deriving DecidableEq

/-- Insert a column into a list sorted by ordinal position. -/
def insertByOrdinal (c : ColumnInfo) : List ColumnInfo → List ColumnInfo
  | [] => [c]
  | d :: rest =>
    if c.ordinal ≤ d.ordinal then c :: d :: rest else d :: insertByOrdinal c rest

/-- Sort a list of columns by ordinal position (the meaning of
`ORDER BY ordinal_position`). -/
def sortByOrdinal : List ColumnInfo → List ColumnInfo
  | [] => []
  | c :: rest => insertByOrdinal c (sortByOrdinal rest)

/-- The rows the `DescribeTable` query (core.go:133-138) returns: the
columns of `s.t`, in ordinal order. -/
def describeRows (catalog : List ColumnInfo) (s t : String) : List ColumnInfo :=
  sortByOrdinal (catalog.filter (fun c => c.schema == s && c.table == t))

/-- The descriptor `DescribeTable` builds from one column
(core.go:149-157): name, declared type, `nullable` as the boolean
`is_nullable == "YES"`, and `default` only when the scanned `NullString`
is valid. -/
def mkDescriptor (c : ColumnInfo) : GoValue :=
  .obj ([("name", .str c.name), ("type", .str c.dataType),
         ("nullable", .bool (c.isNullable == "YES"))] ++
        (match c.colDefault with
         | some d => [("default", .str d)]
         | none => []))

/-- `DescribeTable` over the semantic catalog. -/
def DescribeTableSem (catalog : List ColumnInfo) (s t : String) : List GoValue :=
  (describeRows catalog s t).map mkDescriptor

/-! ### The full-table-schema composite

`GetFullTableSchemaCore` above is the core function; the HTTP handler
(`FullTableSchemaHandler`, handlers.go:109-203) is modelled here over
the outcomes of its three sub-queries, which it runs in sequence:
columns (failure aborts with the error), sample rows (failure is
swallowed, the slice stays nil), foreign keys (failure is swallowed,
the slice stays nil). -/

/-- The handler's `Column` struct (handlers.go:118-123): `Nullable` is a
*string* here, and `DefaultValue` a plain string with `omitempty`. -/
structure HColumn where
  name : String
  dataType : String
  nullable : String
  defaultValue : String
deriving DecidableEq

/-- JSON shape of the handler's `Column` struct. -/
def mkHColumnObj (c : HColumn) : GoValue :=
  .obj ([("name", .str c.name), ("type", .str c.dataType),
         ("nullable", .str c.nullable)] ++
        (if c.defaultValue = "" then [] else [("default", .str c.defaultValue)]))

/-- `FullTableSchemaHandler` (handlers.go:109-203) over the outcomes of
its three sub-queries.  A column-query failure aborts the request with
an HTTP 500; sample-row and foreign-key failures leave their slices nil
(marshalled as `null`); sample cells are passed through
`convertValue`. -/
def FullTableSchemaHandler (table : String)
    (colq : Except String (List HColumn))
    (sampq : Except String DriverRows)
    (fkq : Except String (List Fk)) : Except String GoValue :=
  match colq with
  | .error e => .error e
  | .ok cs =>
    let samples : List GoValue :=
      match sampq with
      | .error _ => []
      | .ok dr => dr.rows.map (fun r => rowObj dr.cols (r.map convertValue))
    let fks : List GoValue :=
      match fkq with
      | .error _ => []
      | .ok l => l.map mkHandlerFkEntry
    .ok (.obj [("table", .str table),
               ("columns", goSliceVal (cs.map mkHColumnObj)),
               ("sample_rows", goSliceVal samples),
               ("foreign_keys", goSliceVal fks)])

/-! ### The broadcast hub (main.go:17-60)

`make(chan server.Event)` creates an *unbuffered* channel; a send on it
can complete only by rendezvous with a ready receiver.  `Hub.Run`
(main.go:27-29) has an empty body, so the only receives from the
broadcast channel are the `select` statements inside `ServeHTTP`, one
per attached SSE subscriber.  The `CustomHub` of the SSE server variant
instead starts a `processEvents` goroutine that receives from the
channel unconditionally. -/

/-- Capacity of the Hub's broadcast channel: `make(chan server.Event)`
(main.go:23). -/
def hubBroadcastCapacity : ℕ := 0

/-- A send on a Go channel completes without blocking exactly when the
buffer has free space or some receiver is ready at the rendezvous. -/
def channelSendCompletes (capacity buffered readyReceivers : ℕ) : Bool :=
  decide (buffered < capacity) || decide (0 < readyReceivers)

/-- Ready receivers on the main.go Hub's broadcast channel: one per
attached subscriber blocked in `ServeHTTP`'s `select` (main.go:50-59);
`Run()` contributes none (main.go:27-29, empty body). -/
def mainHubReadyReceivers (subscribers : ℕ) : ℕ := subscribers

/-- Ready receivers on the `CustomHub` broadcast channel of the SSE
variant: its `processEvents` goroutine ranges over the channel
unconditionally, independent of the subscriber count. -/
def customHubReadyReceivers (_subscribers : ℕ) : ℕ := 1

/-- Whether `ExecuteQueryHandler` returns after a successful query
(handlers.go:101-105): when `broadcast` is set it performs the channel
send before writing the response, so it returns only if that send can
complete. -/
def executeQueryHandlerReturns (broadcast : Bool) (subscribers : ℕ) : Bool :=
  !broadcast || channelSendCompletes hubBroadcastCapacity 0 (mainHubReadyReceivers subscribers)

/-! ### Helper lemmas on the ordinal sort -/

theorem mem_insertByOrdinal {a c : ColumnInfo} :
    ∀ {l : List ColumnInfo}, a ∈ insertByOrdinal c l ↔ a = c ∨ a ∈ l
  | [] => by simp [insertByOrdinal]
  | d :: rest => by
    by_cases h : c.ordinal ≤ d.ordinal
    · simp [insertByOrdinal, h, List.mem_cons]
    · simp only [insertByOrdinal, if_neg h, List.mem_cons,
        mem_insertByOrdinal (l := rest)]
      tauto

theorem mem_sortByOrdinal {a : ColumnInfo} :
    ∀ {l : List ColumnInfo}, a ∈ sortByOrdinal l ↔ a ∈ l
  | [] => by simp [sortByOrdinal]
  | c :: rest => by
    simp [sortByOrdinal, mem_insertByOrdinal, mem_sortByOrdinal (l := rest),
      List.mem_cons]

theorem pairwise_insertByOrdinal {c : ColumnInfo} :
    ∀ {l : List ColumnInfo},
      l.Pairwise (fun x y => x.ordinal ≤ y.ordinal) →
      (insertByOrdinal c l).Pairwise (fun x y => x.ordinal ≤ y.ordinal)
  | [], _ => by simp [insertByOrdinal]
  | d :: rest, h => by
    rw [List.pairwise_cons] at h
    obtain ⟨hd, hrest⟩ := h
    by_cases hc : c.ordinal ≤ d.ordinal
    · simp only [insertByOrdinal, if_pos hc]
      refine List.Pairwise.cons ?_ (List.Pairwise.cons hd hrest)
      intro b hb
      rcases List.mem_cons.mp hb with rfl | hb2
      · exact hc
      · exact le_trans hc (hd b hb2)
    · simp only [insertByOrdinal, if_neg hc]
      refine List.Pairwise.cons ?_ (pairwise_insertByOrdinal hrest)
      intro b hb
      rcases mem_insertByOrdinal.mp hb with rfl | hb2
      · exact le_of_not_le hc
      · exact hd b hb2

theorem pairwise_sortByOrdinal :
    ∀ (l : List ColumnInfo),
      (sortByOrdinal l).Pairwise (fun x y => x.ordinal ≤ y.ordinal)
  | [] => by simp [sortByOrdinal]
  | c :: rest => pairwise_insertByOrdinal (pairwise_sortByOrdinal rest)

/-! ### Concrete database environments used as failing inputs -/

/-- An environment whose (only) query yields one row holding the raw
driver bytes `123` in column `n`. -/
def bytesEnv : DbEnv where
  exec := fun _ => .ok ()
  query := fun _ _ =>
    .ok { cols := ["n"], colsErr := none,
          rows := [[GoValue.bytes "123"]], iterErr := none }

/-- An environment whose query yields one good row and then fails
iteration: `rows.Err()` reports a connection reset. -/
def truncatedEnv : DbEnv where
  exec := fun _ => .ok ()
  query := fun _ _ =>
    .ok { cols := ["n"], colsErr := none,
          rows := [[GoValue.int 1]], iterErr := some "connection reset by peer" }

/-- An environment whose column query yields exactly one column
definition (`id integer NOT NULL`, no default). -/
def columnsOnlyEnv : DbEnv where
  exec := fun _ => .ok ()
  query := fun _ _ =>
    .ok { cols := ["column_name", "data_type", "is_nullable", "column_default"],
          colsErr := none,
          rows := [[GoValue.bytes "id", GoValue.bytes "integer",
                    GoValue.bytes "NO", GoValue.nil]],
          iterErr := none }

/-- An environment whose every query fails. -/
def failingEnv : DbEnv where
  exec := fun _ => .ok ()
  query := fun _ _ => .error "boom"

/-- The single foreign key of the C5 counterexample:
`public.orders.user_id` references `public.users.id`. -/
def ordersFk : Fk where
  name := "orders_user_id_fkey"
  schema := "public"
  table := "orders"
  column := "user_id"
  refSchema := "public"
  refTable := "users"
  refColumn := "id"

/-- A catalog with exactly the one constraint `ordersFk`. -/
def fkExample : List Fk := [ordersFk]

/-- An environment that answers every query with the given columns and
rows; models one possible delivery order of an `ORDER BY`-free query. -/
def constRowsEnv (cols : List String) (rows : List (List GoValue)) : DbEnv where
  exec := fun _ => .ok ()
  query := fun _ _ => .ok { cols := cols, colsErr := none, rows := rows, iterErr := none }

/-- Column `id integer NOT NULL DEFAULT now()` at ordinal position 1 of
`public.users`. -/
def usersIdCol : ColumnInfo where
  schema := "public"
  table := "users"
  name := "id"
  dataType := "integer"
  isNullable := "NO"
  colDefault := some "now()"
  ordinal := 1

/-- Column `email text NULL` at ordinal position 2 of `public.users`. -/
def usersEmailCol : ColumnInfo where
  schema := "public"
  table := "users"
  name := "email"
  dataType := "text"
  isNullable := "YES"
  colDefault := none
  ordinal := 2

/-- The two-column catalog of `public.users`, listed out of ordinal
order. -/
def usersCatalog : List ColumnInfo := [usersEmailCol, usersIdCol]

/-- A delivery of the handler's unordered describe query for
`public.users` that yields `email` (ordinal 2) before `id` (ordinal 1) —
legal, since that query has no `ORDER BY`. -/
def describeDelivery : List (List GoValue) :=
  [[GoValue.bytes "email", GoValue.bytes "text", GoValue.bytes "YES"],
   [GoValue.bytes "id", GoValue.bytes "integer", GoValue.bytes "NO"]]

/-- The composite the core `GetFullTableSchema` produces on
`columnsOnlyEnv`. -/
def coreCompositeExample : GoValue :=
  .obj [("schema", .str "public"), ("table", .str "users"),
        ("columns", .arr [.obj [("name", .str "id"), ("type", .str "integer"),
                                ("nullable", .bool false)]])]

/-! ### Claim theorems -/

/-- Claim C1: the claim states that *every* schema-pinning operation,
including every `executeQuery` variant, builds the pin statement as
`"SET search_path TO " ++ pq.QuoteIdentifier(schema)`.  The core
`ExecuteQuery`/`SampleRows` do (last two conjuncts), but the standalone
`executeQuery` helper interpolates the schema unescaped: at the schema
string `public; DROP TABLE users; --` it sends the raw text as the pin
statement, which differs from the quoted form — the injection boundary
the spec mandates is absent there. -/
theorem schema_pin_unescaped_in_legacy_executeQuery :
    pinRaw "public; DROP TABLE users; --"
      = "SET search_path TO public; DROP TABLE users; --"
    ∧ quoteIdentifier "public; DROP TABLE users; --"
      = "\"public; DROP TABLE users; --\""
    ∧ pinRaw "public; DROP TABLE users; --" ≠ pinQuoted "public; DROP TABLE users; --"
    ∧ (legacyExecuteQuery trivialDbEnv "public; DROP TABLE users; --" "SELECT 1").2
      = ["SET search_path TO public; DROP TABLE users; --", "SELECT 1"]
    ∧ (ExecuteQuery trivialDbEnv "public; DROP TABLE users; --" "SELECT 1" []).2
      = ["SET search_path TO \"public; DROP TABLE users; --\"", "SELECT 1"]
    ∧ (SampleRows trivialDbEnv "public; DROP TABLE users; --" "users" 5).2.head?
      = some "SET search_path TO \"public; DROP TABLE users; --\"" := by
  decide

/-- Claim C2: the claim states that every cell of every produced
QueryResult and every published event payload has passed through
`convertValue`.  On a row whose cell the driver returns as the bytes
`123`, the core `ExecuteQuery` places the raw bytes value in the row
mapping and `handleExecuteQuery` publishes that payload to the hub —
`convertValue` (which would have produced the integer 123) is never
applied on this path.  Only the HTTP handler normalizes its cells (last
conjunct). -/
theorem raw_driver_bytes_reach_result_and_event :
    (ExecuteQuery bytesEnv "public" "SELECT n FROM t" []).1
      = .ok (.obj [("columns", .arr [.str "n"]),
                   ("rows", .arr [.obj [("n", GoValue.bytes "123")]])])
    ∧ (handleExecuteQuery bytesEnv
        { emptyToolArgs with query := some "SELECT n FROM t", broadcast := some true }).2.2
      = [⟨"query_result", .obj [("columns", .arr [.str "n"]),
                                ("rows", .arr [.obj [("n", GoValue.bytes "123")]])]⟩]
    ∧ convertValue (GoValue.bytes "123") = GoValue.int 123
    ∧ GoValue.bytes "123" ≠ GoValue.int 123
    ∧ (ExecuteQueryHandler bytesEnv
        { schema := "", query := "SELECT n FROM t", args := [],
          broadcast := false, eventName := "" }).1
      = .ok (.obj [("columns", .arr [.str "n"]),
                   ("rows", .arr [.obj [("n", GoValue.int 123)]])]) := by
  refine ⟨rfl, rfl, rfl, ?_, rfl⟩
  intro h
  exact GoValue.noConfusion h

/-- Claim C4: the claim states that an iteration error after some rows
yields a failure, never a truncated success.  On an environment whose
cursor delivers one row and then reports `connection reset by peer`, the
core `ExecuteQuery` and the HTTP handler both return the one-row result
as `.ok` — `rows.Err()` is never consulted there; only the standalone
`executeQuery` helper surfaces the error. -/
theorem rows_iteration_error_silently_truncated :
    (ExecuteQuery truncatedEnv "public" "SELECT n FROM big" []).1
      = .ok (.obj [("columns", .arr [.str "n"]),
                   ("rows", .arr [.obj [("n", GoValue.int 1)]])])
    ∧ (ExecuteQueryHandler truncatedEnv
        { schema := "public", query := "SELECT n FROM big", args := [],
          broadcast := false, eventName := "" }).1
      = .ok (.obj [("columns", .arr [.str "n"]),
                   ("rows", .arr [.obj [("n", GoValue.int 1)]])])
    ∧ (legacyExecuteQuery truncatedEnv "public" "SELECT n FROM big").1
      = .error "rows error: connection reset by peer" :=
  ⟨rfl, rfl, rfl⟩

/-- Claim C5 counterexample: the catalog holds exactly one foreign key,
`public.orders.user_id → public.users.id`.  The spec-worded set for
`("public", "users")` contains it (the key *references* `users`), yet
`GetForeignKeys` returns no entry for `users` — it only returns the key
when asked about the constrained table `orders`.  The HTTP handler does
return it for `users`. -/
theorem getForeignKeys_misses_referenced_side :
    (specForeignKeySet fkExample "public" "users").length = 1
    ∧ GetForeignKeysSem fkExample "public" "users" = []
    ∧ GetForeignKeysSem fkExample "public" "orders" = [mkFkEntry ordersFk]
    ∧ ForeignKeysHandlerSem fkExample "public" "users" = [mkHandlerFkEntry ordersFk] :=
  ⟨by decide, rfl, rfl, rfl⟩

/-- Claim C5 (amended): `getForeignKeys(s, t)` returns one
{sourceColumn, referencedSchema, referencedTable, referencedColumn}
entry for exactly the foreign-key constraints whose *constrained* table
is `t` in schema `s` (and whose referenced table lies in the same
schema, per the query's join condition); constraints in which `t` is
only the referenced table yield no entry.  The HTTP foreign-keys
handler, by contrast, matches either side. -/
theorem getForeignKeys_constrained_side_only :
    ∀ (fks : List Fk) (s t : String) (e : GoValue),
      (e ∈ GetForeignKeysSem fks s t ↔
        ∃ fk, fk ∈ fks ∧ fk.schema = s ∧ fk.table = t ∧ fk.refSchema = s
          ∧ e = mkFkEntry fk)
      ∧ (e ∈ ForeignKeysHandlerSem fks s t ↔
        ∃ fk, fk ∈ fks ∧ fk.schema = s ∧ (fk.table = t ∨ fk.refTable = t)
          ∧ fk.refSchema = s ∧ e = mkHandlerFkEntry fk) := by
  intro fks s t e
  constructor
  · constructor
    · intro he
      obtain ⟨fk, hfk, rfl⟩ := List.mem_map.mp he
      obtain ⟨hmem, hp⟩ := List.mem_filter.mp hfk
      simp only [Bool.and_eq_true, beq_iff_eq] at hp
      obtain ⟨⟨hs, ht⟩, hr⟩ := hp
      exact ⟨fk, hmem, hs, ht, hr.trans hs, rfl⟩
    · rintro ⟨fk, hmem, hs, ht, hr, rfl⟩
      refine List.mem_map.mpr ⟨fk, List.mem_filter.mpr ⟨hmem, ?_⟩, rfl⟩
      simp [hs, ht, hr.trans hs.symm]
  · constructor
    · intro he
      obtain ⟨fk, hfk, rfl⟩ := List.mem_map.mp he
      obtain ⟨hmem, hp⟩ := List.mem_filter.mp hfk
      simp only [Bool.and_eq_true, Bool.or_eq_true, beq_iff_eq] at hp
      obtain ⟨⟨hs, ht⟩, hr⟩ := hp
      exact ⟨fk, hmem, hs, ht, hr.trans hs, rfl⟩
    · rintro ⟨fk, hmem, hs, ht, hr, rfl⟩
      refine List.mem_map.mpr ⟨fk, List.mem_filter.mpr ⟨hmem, ?_⟩, rfl⟩
      rcases ht with h | h <;> simp [hs, h, hr.trans hs.symm]

/-- Claim C6 counterexample: on a successful column query the core
`GetFullTableSchema` returns only `{schema, table, columns}` — the
composite carries no `sample_rows` and no `foreign_keys` part at all —
and when the column query fails the call fails outright instead of
assembling a partial composite; its statement log shows the sample-row
and foreign-key sub-queries are never even issued. -/
theorem getFullTableSchema_lacks_samples_and_fks :
    (GetFullTableSchemaCore columnsOnlyEnv "public" "users").1 = .ok coreCompositeExample
    ∧ objLookup coreCompositeExample "sample_rows" = none
    ∧ objLookup coreCompositeExample "foreign_keys" = none
    ∧ objLookup coreCompositeExample "columns"
      = some (.arr [.obj [("name", .str "id"), ("type", .str "integer"),
                          ("nullable", .bool false)]])
    ∧ (GetFullTableSchemaCore failingEnv "public" "users").1 = .error "boom"
    ∧ (GetFullTableSchemaCore failingEnv "public" "users").2 = [columnsSQL] :=
  ⟨rfl, rfl, rfl, rfl, rfl, rfl⟩

/-- Claim C6 (amended): the core `getFullTableSchema` returns only
schema, table and column descriptors and propagates a column-query
failure; the HTTP full-table-schema handler returns the three-part
composite and tolerates sample-row and foreign-key sub-query failures
(the failing part stays null) but aborts when the column query fails.
The core function issues only the column query. -/
theorem fullTableSchema_partial_assembly :
    ∀ (db : DbEnv) (s t e : String) (cs : List HColumn) (dr : DriverRows)
      (fks : List Fk) (sampq : Except String DriverRows)
      (fkq : Except String (List Fk)),
      FullTableSchemaHandler t (.error e) sampq fkq = .error e
      ∧ FullTableSchemaHandler t (.ok cs) (.error e) (.error e)
        = .ok (.obj [("table", .str t),
                     ("columns", goSliceVal (cs.map mkHColumnObj)),
                     ("sample_rows", GoValue.nil), ("foreign_keys", GoValue.nil)])
      ∧ FullTableSchemaHandler t (.ok cs) (.ok dr) (.error e)
        = .ok (.obj [("table", .str t),
                     ("columns", goSliceVal (cs.map mkHColumnObj)),
                     ("sample_rows", goSliceVal (dr.rows.map
                        (fun r => rowObj dr.cols (r.map convertValue)))),
                     ("foreign_keys", GoValue.nil)])
      ∧ FullTableSchemaHandler t (.ok cs) (.error e) (.ok fks)
        = .ok (.obj [("table", .str t),
                     ("columns", goSliceVal (cs.map mkHColumnObj)),
                     ("sample_rows", GoValue.nil),
                     ("foreign_keys", goSliceVal (fks.map mkHandlerFkEntry))])
      ∧ (GetFullTableSchemaCore db s t).2 = [columnsSQL] := by
  intro db s t e cs dr fks sampq fkq
  refine ⟨rfl, rfl, rfl, rfl, ?_⟩
  unfold GetFullTableSchemaCore
  cases h : db.query columnsSQL [.str s, .str t] <;> simp [h]

/-- Claim C7: the claim states that publishing with zero attached
subscribers completes as a no-op and the invocation still returns
success.  The broadcast channel is unbuffered and `Hub.Run` is empty, so
a send can complete only by rendezvous with a subscriber's receive: with
zero subscribers the send cannot complete and a broadcast-requesting
invocation never returns, although its query already succeeded.  With a
subscriber attached, or on the SSE variant's `CustomHub` (whose drainer
goroutine always receives), the send completes. -/
theorem hub_publish_blocks_without_subscribers :
    channelSendCompletes hubBroadcastCapacity 0 (mainHubReadyReceivers 0) = false
    ∧ executeQueryHandlerReturns true 0 = false
    ∧ executeQueryHandlerReturns false 0 = true
    ∧ channelSendCompletes hubBroadcastCapacity 0 (mainHubReadyReceivers 1) = true
    ∧ channelSendCompletes hubBroadcastCapacity 0 (customHubReadyReceivers 0) = true := by
  decide

/-- Claim C8: invoking any tool name outside the registry yields the
"not implemented yet" response, and the statement log is empty — the
database connection is never used before (or after) the rejection. -/
theorem unknown_tool_not_implemented_no_db :
    ∀ (db : DbEnv) (a : ToolArgs) (name : String),
      name ∉ registeredToolNames →
      handleToolCall db name a = (⟨.plain (notImplementedText name)⟩, [], []) := by
  intro db a name h
  simp only [registeredToolNames, List.mem_cons, List.not_mem_nil, or_false,
    not_or] at h
  obtain ⟨h1, h2, h3, h4, h5, h6, h7⟩ := h
  simp [handleToolCall, h1, h2, h3, h4, h5, h6, h7]

/-- Witness for C8: the unregistered name `dropEverything` is rejected
with the "not implemented yet" text and no database statement. -/
theorem unknown_tool_not_implemented_no_db_witness :
    "dropEverything" ∉ registeredToolNames
    ∧ handleToolCall trivialDbEnv "dropEverything" emptyToolArgs
      = (⟨.plain (notImplementedText "dropEverything")⟩, [], []) :=
  ⟨by decide,
   unknown_tool_not_implemented_no_db trivialDbEnv emptyToolArgs "dropEverything"
     (by decide)⟩

/-- Claim C9: `sampleRows` with limit 0, limit −3 and limit absent each
behave exactly as limit 5, both at the core `SampleRows` (which coerces
any non-positive limit to 5) and at the tool handler (which defaults an
absent limit to 5). -/
theorem sampleRows_limit_defaults_to_five :
    ∀ (db : DbEnv) (schema table : String) (a : ToolArgs),
      SampleRows db schema table 0 = SampleRows db schema table 5
      ∧ SampleRows db schema table (-3) = SampleRows db schema table 5
      ∧ handleSampleRows db { a with limit := some 0 }
        = handleSampleRows db { a with limit := some 5 }
      ∧ handleSampleRows db { a with limit := some (-3) }
        = handleSampleRows db { a with limit := some 5 }
      ∧ handleSampleRows db { a with limit := none }
        = handleSampleRows db { a with limit := some 5 } := by
  intro db schema table a
  exact ⟨rfl, rfl, rfl, rfl, rfl⟩

/-- Claim C10 counterexample: the claim's property fails on the cited
`DescribeTableHandler`.  On a delivery of its unordered query that
yields `email` (ordinal 2) before `id` (ordinal 1) the handler returns
the descriptors in that delivered order — not ordinal order, which the
core `DescribeTable` does produce for the same catalog (last conjunct) —
with `nullable` as the raw string `NO` (not a boolean), and with no
`default` field even though the `id` column has the default `now()`
(which the core descriptor does carry). -/
theorem describeTableHandler_string_nullable_unordered :
    (DescribeTableHandler
        (constRowsEnv ["column_name", "data_type", "is_nullable"] describeDelivery)
        "public" "users").1
      = .ok (.arr [.obj [("name", .str "email"), ("type", .str "text"),
                         ("nullable", .str "YES")],
                   .obj [("name", .str "id"), ("type", .str "integer"),
                         ("nullable", .str "NO")]])
    ∧ objLookup (.obj [("name", .str "id"), ("type", .str "integer"),
                       ("nullable", .str "NO")]) "nullable" = some (.str "NO")
    ∧ GoValue.str "NO" ≠ GoValue.bool false
    ∧ objLookup (.obj [("name", .str "id"), ("type", .str "integer"),
                       ("nullable", .str "NO")]) "default" = none
    ∧ objLookup (mkDescriptor usersIdCol) "nullable" = some (.bool false)
    ∧ objLookup (mkDescriptor usersIdCol) "default" = some (.str "now()")
    ∧ DescribeTableSem usersCatalog "public" "users"
      = [mkDescriptor usersIdCol, mkDescriptor usersEmailCol] := by
  refine ⟨rfl, rfl, ?_, rfl, rfl, rfl, rfl⟩
  intro h
  exact GoValue.noConfusion h

/-- Claim C10 (amended): the core `DescribeTable` (the operation behind
the MCP tool) returns one descriptor per column of `s.t`, carrying the
name, the declared type, `nullable` as the boolean `is_nullable = YES`,
and the optional default string, with the underlying rows ordered by
`ordinal_position`.  The HTTP describe handler, by contrast, returns
descriptors whose `nullable` is the raw `YES`/`NO` string, never
includes a default (its query selects no `column_default`), and
preserves whatever row order the database delivers (its query has no
`ORDER BY`). -/
theorem describeTable_ordinal_order_and_fields :
    ∀ (catalog : List ColumnInfo) (s t : String),
      (describeRows catalog s t).Pairwise (fun a b => a.ordinal ≤ b.ordinal)
      ∧ (∀ d, d ∈ DescribeTableSem catalog s t ↔
          ∃ c, c ∈ catalog ∧ c.schema = s ∧ c.table = t ∧ d = mkDescriptor c)
      ∧ (∀ c : ColumnInfo,
          objLookup (mkDescriptor c) "name" = some (.str c.name)
          ∧ objLookup (mkDescriptor c) "type" = some (.str c.dataType)
          ∧ objLookup (mkDescriptor c) "nullable"
            = some (.bool (c.isNullable == "YES"))
          ∧ objLookup (mkDescriptor c) "default" = c.colDefault.map GoValue.str)
      ∧ (∀ (cols : List String) (rows : List (List GoValue)),
          (DescribeTableHandler (constRowsEnv cols rows) s t).1
            = .ok (goSliceVal (rows.map mkHandlerDescriptor)))
      ∧ (∀ r : List GoValue,
          objLookup (mkHandlerDescriptor r) "nullable"
            = some (.str (cellString (r.getD 2 GoValue.nil)))
          ∧ objLookup (mkHandlerDescriptor r) "default" = none) := by
  intro catalog s t
  refine ⟨pairwise_sortByOrdinal _, ?_, ?_, fun cols rows => rfl, ?_⟩
  · intro d
    simp only [DescribeTableSem, describeRows, List.mem_map, mem_sortByOrdinal,
      List.mem_filter, Bool.and_eq_true, beq_iff_eq]
    constructor
    · rintro ⟨c, ⟨hc, hs, ht⟩, rfl⟩
      exact ⟨c, hc, hs, ht, rfl⟩
    · rintro ⟨c, hc, hs, ht, rfl⟩
      exact ⟨c, ⟨hc, hs, ht⟩, rfl⟩
  · intro c
    cases hd : c.colDefault <;>
      simp [mkDescriptor, objLookup, lookupField, hd]
  · intro r
    exact ⟨rfl, rfl⟩

end PgMcp
